import Mathlib

/-!
Shallow embedding of the browser-mode transport layer of the jean
repository (`src/lib/transport.ts`): the WebSocket transport singleton
(correlation table, event multiplexer, connection state machine with
token validation and backoff, outbound send queue), the bootstrap
preloader accessors, and the query-cache invalidation pass the
application shell runs when the socket reaches Connected.

Embedding conventions: JavaScript `Map`s become association lists with
unique keys, `Set`s become duplicate-free lists, promise settlement
becomes an append-only log (a JS promise settles at most once), and
`setTimeout` timers become explicit events that can only fire while the
timer is still armed (`clearTimeout` disarms).  Event handlers are
identified by numbers, their behaviour (return or throw) is supplied as
an explicit function.  String messages are kept close to the source
text (apostrophes elided).
-/

namespace Jean

/-- WebSocket readyState (CONNECTING / OPEN / CLOSING / CLOSED). -/
inductive ReadyState where
  | connecting
  | opened
  | closing
  | closed
  deriving DecidableEq, Repr

/-- How a pending request promise settled: `resolve(msg.data)`,
`reject(new Error(msg.error))`, or the 60-second timer rejection. -/
inductive Outcome where
  | resolved (data : Option String)
  | rejectedErr (error : String)
  | timedOut
  deriving DecidableEq, Repr

/-- Result of the token pre-flight fetch inside `validateAndConnect`:
the response arrived ok, arrived with a non-ok status, or the fetch
threw (network-level failure). -/
inductive FetchOutcome where
  | ok
  | notOk
  | networkFailure
  deriving DecidableEq, Repr

/-- State of the `WsTransport` singleton together with the parts of its
environment it reads and writes (socket readyState, the URL token query
parameter, the localStorage slot) and observation logs: `sent` records
every string written to the socket, `settled` records every promise
settlement of a correlated request, `invoked` records every handler
invocation `(handler, payload)`, `errLog` the console errors reported
for throwing handlers.  `pending` maps request id to the registered
timeout delay; `armed` lists the request ids whose expiry timer is
still armed. -/
structure TransportState where
  wsReady : Option ReadyState
  pending : List (String × Nat)
  armed : List String
  settled : List (String × Outcome)
  listeners : List (String × List Nat)
  queue : List String
  sent : List String
  connected : Bool
  connecting : Bool
  authError : Option String
  reconnectTimer : Option Nat
  reconnectAttempt : Nat
  storedToken : Option String
  urlToken : Option String
  invoked : List (Nat × Nat)
  errLog : List String
  deriving DecidableEq, Repr

/-- `Map.get` on an association list of listener sets. -/
def lookupL (m : List (String × List Nat)) (k : String) : Option (List Nat) :=
  (m.find? fun p => p.1 == k).map (·.2)

/-- `Map.set`: replace the entry for the key, or append a new one. -/
def mapSet : List (String × List Nat) → String → List Nat → List (String × List Nat)
  | [], k, v => [(k, v)]
  | p :: rest, k, v => if p.1 == k then (k, v) :: rest else p :: mapSet rest k v

/-- `Map.delete`. -/
def mapDelete (m : List (String × List Nat)) (k : String) : List (String × List Nat) :=
  m.filter fun p => p.1 != k

/-- `Set.add`: a JS Set never holds duplicates. -/
def setAdd (l : List Nat) (h : Nat) : List Nat :=
  if l.any (· == h) then l else l ++ [h]

/-- `Set.delete` on a duplicate-free list. -/
def setDel (l : List Nat) (h : Nat) : List Nat :=
  l.filter (· != h)

/-- The message set by `connect` when no token can be resolved. -/
def noTokenMsg : String := "No access token provided. Use the URL from the Jean Web Access settings."

/-- The message set by `validateAndConnect` on an explicit rejection. -/
def invalidTokenMsg : String := "Invalid access token. Check the URL in the Jean Web Access settings."

/-- The fixed per-request timeout delay (60 seconds) of `invoke`. -/
def timedOutDelayMs : Nat := 60000

/-- `WsTransport.scheduleReconnect`: a no-op when a reconnect timer is
already scheduled or an auth error is set; otherwise arm a timer with
exponential backoff `min(1000 * 2 ^ attempt, 30000)` and increment the
attempt counter. -/
def scheduleReconnect (s : TransportState) : TransportState :=
  if s.reconnectTimer.isSome then s
  else if s.authError.isSome then s
  else
    { s with reconnectTimer := some (min (1000 * 2 ^ s.reconnectAttempt) 30000),
             reconnectAttempt := s.reconnectAttempt + 1 }

/-- Token resolution in `connect`: the URL query parameter first (the
empty string is falsy in JS), then the persisted localStorage value,
else the empty string. -/
def resolveToken (s : TransportState) : String :=
  match s.urlToken with
  | some t =>
      if t == "" then (match s.storedToken with | some u => u | none => "") else t
  | none => match s.storedToken with | some u => u | none => ""

/-- `connect`: persist a non-empty URL token to localStorage and strip
it from the visible URL. -/
def persistUrlToken (s : TransportState) : TransportState :=
  match s.urlToken with
  | some t =>
      if t == "" then s else { s with storedToken := some t, urlToken := none }
  | none => s

/-- `WsTransport.connect`: guard against duplicate attempts, resolve
the token, persist and strip a URL token, set the no-token auth error
when no token is available; otherwise mark validation as in flight (the
asynchronous `validateAndConnect` completes later as a separate
`validateResult` event). -/
def connect (s : TransportState) : TransportState :=
  if s.connecting || s.wsReady == some ReadyState.opened
      || s.wsReady == some ReadyState.connecting then s
  else if resolveToken s == "" then { persistUrlToken s with authError := some noTokenMsg }
  else { persistUrlToken s with connecting := true }

/-- `WsTransport.connectWs`: construct the WebSocket (readyState starts
at CONNECTING; its open/message/close callbacks are modelled as
events). -/
def connectWs (s : TransportState) : TransportState :=
  { s with wsReady := some ReadyState.connecting }

/-- `WsTransport.validateAndConnect`, applied when the pre-flight fetch
settles: a non-ok response removes the persisted token and sets the
auth error, scheduling no reconnect and opening no socket; a network
failure clears the auth error and schedules a reconnect; ok clears the
auth error and opens the socket. -/
def validateAndConnect (s : TransportState) : FetchOutcome → TransportState
  | FetchOutcome.notOk =>
      { s with storedToken := none, authError := some invalidTokenMsg }
  | FetchOutcome.networkFailure =>
      scheduleReconnect { s with authError := none }
  | FetchOutcome.ok => connectWs { s with authError := none }

/-- The `onopen` flush loop: write each queued message to the socket in
arrival order (each item's resolve callback is the no-op closure that
`invoke` installs when it queues). -/
def flushQueue : List String → List String → List String
  | [], written => written
  | d :: rest, written => flushQueue rest (written ++ [d])

/-- `ws.onopen`: mark connected, reset the reconnect attempt counter to
zero, flush the entire queue to the socket, then empty the queue. -/
def handleOpen (s : TransportState) : TransportState :=
  { s with wsReady := some ReadyState.opened, connected := true,
           reconnectAttempt := 0,
           sent := flushQueue s.queue s.sent, queue := [] }

/-- `ws.onclose`: mark disconnected and schedule a reconnect; nothing
else is touched. -/
def handleClose (s : TransportState) : TransportState :=
  scheduleReconnect { s with wsReady := some ReadyState.closed, connected := false }

/-- `WsTransport.invoke`: arm the 60-second timer, register the pending
request under the fresh id, then either send at once (socket OPEN) or
queue the serialized envelope and nudge `connect`. -/
def invoke (s : TransportState) (id : String) (dataStr : String) : TransportState :=
  if s.wsReady == some ReadyState.opened then
    { s with armed := s.armed ++ [id], pending := s.pending ++ [(id, timedOutDelayMs)],
             sent := s.sent ++ [dataStr] }
  else
    connect { s with armed := s.armed ++ [id], pending := s.pending ++ [(id, timedOutDelayMs)],
                     queue := s.queue ++ [dataStr] }

/-- `handleMessage`, response branch: when the id is in the pending
table, cancel its timer, deregister it and resolve it; unknown ids are
ignored. -/
def handleResponse (s : TransportState) (id : String) (d : Option String) : TransportState :=
  match s.pending.find? (fun p => p.1 == id) with
  | some _ =>
      { s with armed := s.armed.filter (· != id),
               pending := s.pending.filter (fun p => p.1 != id),
               settled := s.settled ++ [(id, Outcome.resolved d)] }
  | none => s

/-- `handleMessage`, error branch (an empty error string falls back to
the default just as the JS `||` does). -/
def handleErrorMsg (s : TransportState) (id : String) (e : Option String) : TransportState :=
  match s.pending.find? (fun p => p.1 == id) with
  | some _ =>
      { s with armed := s.armed.filter (· != id),
               pending := s.pending.filter (fun p => p.1 != id),
               settled := s.settled ++
                 [(id, Outcome.rejectedErr (match e with
                     | some m => if m == "" then "Unknown error" else m
                     | none => "Unknown error"))] }
  | none => s

/-- The per-request expiry timer fires: possible only while the timer
is still armed (a settling message disarms it as it deregisters the
id); deregister the id and reject with the timed-out failure. -/
def fireTimeout (s : TransportState) (id : String) : TransportState :=
  if s.armed.any (· == id) then
    { s with armed := s.armed.filter (· != id),
             pending := s.pending.filter (fun p => p.1 != id),
             settled := s.settled ++ [(id, Outcome.timedOut)] }
  else s

/-- The common settle-and-deregister update shared by the response, error
and timeout paths: clear the timer, delete the pending entry, record the
settlement. -/
def settleEntry (s : TransportState) (j : String) (o : Outcome) : TransportState :=
  { s with armed := s.armed.filter (· != j),
           pending := s.pending.filter (fun p => p.1 != j),
           settled := s.settled ++ [(j, o)] }

/-- Fan-out loop of the event branch of `handleMessage`: each handler
runs inside its own try/catch, so a throwing handler (behaviour
`.error`) is logged and iteration continues with the next handler.
Returns the invocation log and the error log. -/
def fanout (beh : Nat → Nat → Except String Unit) (payload : Nat) :
    List Nat → List (Nat × Nat) × List String
  | [] => ([], [])
  | h :: rest =>
      let r := fanout beh payload rest
      match beh h payload with
      | Except.ok _ => ((h, payload) :: r.1, r.2)
      | Except.error e => ((h, payload) :: r.1, e :: r.2)

/-- `handleMessage`, event branch: look up the handler set registered
under the event name and fan the payload out to every handler. -/
def handleEventMsg (beh : Nat → Nat → Except String Unit) (s : TransportState)
    (name : String) (payload : Nat) : TransportState :=
  match lookupL s.listeners name with
  | some hs =>
      let r := fanout beh payload hs
      { s with invoked := s.invoked ++ r.1, errLog := s.errLog ++ r.2 }
  | none => s

/-- The listener-map effect of `WsTransport.listen`: ensure a set
exists for the event name, then add the handler to it. -/
def listenMap (m : List (String × List Nat)) (name : String) (h : Nat) :
    List (String × List Nat) :=
  let m1 := match lookupL m name with
    | none => m ++ [(name, [])]
    | some _ => m
  match lookupL m1 name with
  | some l => mapSet m1 name (setAdd l h)
  | none => m1

/-- `WsTransport.listen`: register the handler and nudge `connect`. -/
def listen (s : TransportState) (name : String) (h : Nat) : TransportState :=
  connect { s with listeners := listenMap s.listeners name h }

/-- The listener-map effect of the unlisten closure returned by
`listen`: delete the handler from the set under the event name (an
optional-chained no-op when the entry is absent), then delete the event
name entirely when its set is left empty. -/
def unlistenMap (m : List (String × List Nat)) (name : String) (h : Nat) :
    List (String × List Nat) :=
  let m1 := match lookupL m name with
    | some l => mapSet m name (setDel l h)
    | none => m
  match lookupL m1 name with
  | some l => if l == [] then mapDelete m1 name else m1
  | none => m1

/-- The unlisten closure returned by `WsTransport.listen`. -/
def unlisten (s : TransportState) (name : String) (h : Nat) : TransportState :=
  { s with listeners := unlistenMap s.listeners name h }

/-- The external events that drive the transport singleton: inbound
socket messages, timer firings, socket lifecycle callbacks, facade
calls and the completion of the token pre-flight fetch. -/
inductive TEvent where
  | msgResponse (id : String) (d : Option String)
  | msgError (id : String) (e : Option String)
  | msgEvent (name : String) (payload : Nat)
  | timeoutFire (id : String)
  | sockOpen
  | sockClose
  | invokeCall (id : String) (dataStr : String)
  | listenCall (name : String) (h : Nat)
  | unlistenCall (name : String) (h : Nat)
  | validateResult (o : FetchOutcome)
  | reconnectFire
  deriving DecidableEq, Repr

/-- One event-loop turn.  `beh` fixes each handler's behaviour on a
payload.  `validateResult` also performs the `.finally` reset of the
connecting flag; `reconnectFire` clears the timer slot and calls
`connect`, as the backoff callback does. -/
def step (beh : Nat → Nat → Except String Unit) (s : TransportState) :
    TEvent → TransportState
  | TEvent.msgResponse id d => handleResponse s id d
  | TEvent.msgError id e => handleErrorMsg s id e
  | TEvent.msgEvent name payload => handleEventMsg beh s name payload
  | TEvent.timeoutFire id => fireTimeout s id
  | TEvent.sockOpen => handleOpen s
  | TEvent.sockClose => handleClose s
  | TEvent.invokeCall id dataStr => invoke s id dataStr
  | TEvent.listenCall name h => listen s name h
  | TEvent.unlistenCall name h => unlisten s name h
  | TEvent.validateResult o => { validateAndConnect s o with connecting := false }
  | TEvent.reconnectFire => connect { s with reconnectTimer := none }

/-- Run a sequence of event-loop turns. -/
def run (beh : Nat → Nat → Except String Unit) (s : TransportState)
    (es : List TEvent) : TransportState :=
  es.foldl (step beh) s

/-- Whether the pending table holds an entry for the id. -/
def pendingHas (s : TransportState) (id : String) : Bool :=
  s.pending.any fun p => p.1 == id

/-- Whether the expiry timer for the id is still armed. -/
def armedHas (s : TransportState) (id : String) : Bool :=
  s.armed.any (· == id)

/-- How many times the promise for the id has settled. -/
def settledCount (s : TransportState) (id : String) : Nat :=
  (s.settled.filter fun p => p.1 == id).length

/-- The timeout delay registered for the id, when pending. -/
def pendingDelay (s : TransportState) (id : String) : Option Nat :=
  (s.pending.find? fun p => p.1 == id).map (·.2)

/-- Correlation-table invariant for a request id that `invoke` has
registered: the timer is armed exactly while the id is pending, the
promise is unsettled while the id is pending, and settled exactly once
after deregistration. -/
def ReqState (id : String) (s : TransportState) : Prop :=
  pendingHas s id = armedHas s id
  ∧ (pendingHas s id = true → settledCount s id = 0)
  ∧ (pendingHas s id = false → settledCount s id = 1)

/-- The event does not register the given id again via invoke. -/
def eventFresh (id : String) : TEvent → Bool
  | TEvent.invokeCall i _ => i != id
  | _ => true

/-- No event in the list registers the given id again (invoke ids are
fresh UUIDs, never reused while outstanding). -/
def freshFor (id : String) (es : List TEvent) : Bool :=
  es.all (eventFresh id)

/-- A baseline transport state: fresh singleton, no socket, nothing
registered. -/
def mkState : TransportState :=
  { wsReady := none, pending := [], armed := [], settled := [],
    listeners := [], queue := [], sent := [], connected := false,
    connecting := false, authError := none, reconnectTimer := none,
    reconnectAttempt := 0, storedToken := none, urlToken := none,
    invoked := [], errLog := [] }

/-- The initial-data snapshot (`InitialData` in transport.ts); entity
payloads are abstracted to strings, keyed records to association
lists, fields guarded by JS truthiness checks to options. -/
structure InitialData where
  projects : Option (List String)
  worktreesByProject : List (String × List String)
  sessionsByWorktree : List (String × String)
  activeSessions : List (String × String)
  preferences : Option String
  uiState : Option String
  deriving DecidableEq, Repr

/-- Modelled from the spec: the query key `projectsQueryKeys.list()` of
the project list cache.  The constructor lives in a services module not
among the visible sources; per the seeding code and the invalidation
comment in the application shell, project data lives under the
"projects" key family.  The tail is representative; only the head is
examined by the invalidation predicate. -/
def projectsListKey : List String := ["projects", "list"]

/-- Modelled from the spec: the query key
`projectsQueryKeys.worktrees(projectId)` of a per-project worktree
collection, under the "projects" key family. -/
def worktreesKey (projectId : String) : List String :=
  ["projects", projectId, "worktrees"]

/-- Modelled from the spec: the query key
`chatQueryKeys.sessions(worktreeId)` of a per-worktree session bundle,
under the "chat" key family. -/
def sessionsKey (worktreeId : String) : List String :=
  ["chat", "sessions", worktreeId]

/-- Modelled from the spec: the query key
`chatQueryKeys.session(sessionId)` of a per-session chat history, under
the "chat" key family. -/
def sessionKey (sessionId : String) : List String :=
  ["chat", "session", sessionId]

/-- The literal preferences key written by `seedCache`. -/
def preferencesKey : List String := ["preferences"]

/-- The literal UI-state key written by `seedCache`. -/
def uiStateKey : List String := ["ui-state"]

/-- `App.seedCache`: the query-cache keys written when seeding the
preloaded snapshot. -/
def seededKeys (d : InitialData) : List (List String) :=
  (d.projects.toList.map fun _ => projectsListKey)
  ++ d.worktreesByProject.map (fun p => worktreesKey p.1)
  ++ d.sessionsByWorktree.map (fun p => sessionsKey p.1)
  ++ d.activeSessions.map (fun p => sessionKey p.1)
  ++ (d.preferences.toList.map fun _ => preferencesKey)
  ++ (d.uiState.toList.map fun _ => uiStateKey)

/-- The `invalidateQueries` predicate the application shell installs
when the socket connects: invalidate every query whose key head is none
of the four preloaded key families (an absent head compares unequal to
all four, as `undefined` does in JS). -/
def invalidatePredicate (key : List String) : Bool :=
  match key with
  | [] => true
  | k :: _ =>
      k != "projects" && k != "preferences" && k != "ui-state" && k != "chat"

/-- A JS promise as observed from one synchronous frame. -/
inductive PromiseState (α : Type) where
  | pendingP
  | fulfilled (v : α)
  deriving DecidableEq, Repr

/-- The module-level preloader globals of transport.ts. -/
structure PreloadGlobals where
  initialDataPromise : Option (PromiseState (Option InitialData))
  initialDataResolved : Bool
  deriving DecidableEq, Repr

/-- `hasPreloadedData`. -/
def hasPreloadedData (g : PreloadGlobals) : Bool :=
  g.initialDataResolved

/-- Registering `promise.then(data => result = data)` from a
synchronous frame: the continuation runs as a microtask strictly after
the frame returns, so the frame itself observes only the current value
of the local; the second component is the value the continuation later
writes into the (by then dead) local. -/
def thenAssign {α : Type} (p : PromiseState α) (localNow : α) : α × α :=
  (localNow, match p with | PromiseState.fulfilled v => v | PromiseState.pendingP => localNow)

/-- `getPreloadedData`, paired with the value the dead local holds
after the microtask runs: guard on the resolved flag and the promise,
bind the local to null, register the then-continuation, return the
local. -/
def getPreloadedDataRun (g : PreloadGlobals) :
    Option InitialData × Option InitialData :=
  if !g.initialDataResolved then (none, none)
  else match g.initialDataPromise with
    | none => (none, none)
    | some p => thenAssign p none

/-- `getPreloadedData` returns the first component: the value of the
local at the frame return. -/
def getPreloadedData (g : PreloadGlobals) : Option InitialData :=
  (getPreloadedDataRun g).1

/-- A concrete snapshot used to evaluate the theorems on closed inputs. -/
def exampleSnapshot : InitialData :=
  { projects := some ["p1"], worktreesByProject := [("p1", ["w1"])],
    sessionsByWorktree := [("w1", "sdata")], activeSessions := [("s1", "chat")],
    preferences := some "prefs", uiState := some "ui" }

/-- Preloader globals after a successful preload, for closed evaluation. -/
def exampleGlobals : PreloadGlobals :=
  { initialDataPromise := some (PromiseState.fulfilled (some exampleSnapshot)),
    initialDataResolved := true }

/-- A transport state with one registered request id "r", for closed
evaluation of the correlation theorems. -/
def regState : TransportState :=
  { mkState with pending := [("r", timedOutDelayMs)], armed := ["r"] }

-- ---------------------------------------------------------------------------
-- Helper lemmas
-- ---------------------------------------------------------------------------

theorem flushQueue_eq (q acc : List String) : flushQueue q acc = acc ++ q := by
  induction q generalizing acc with
  | nil => simp [flushQueue]
  | cons d rest ih => simp [flushQueue, ih]

theorem scheduleReconnect_frame (s : TransportState) :
    (scheduleReconnect s).pending = s.pending ∧ (scheduleReconnect s).armed = s.armed
    ∧ (scheduleReconnect s).settled = s.settled
    ∧ (scheduleReconnect s).listeners = s.listeners
    ∧ (scheduleReconnect s).queue = s.queue := by
  unfold scheduleReconnect
  split
  · exact ⟨rfl, rfl, rfl, rfl, rfl⟩
  · split
    · exact ⟨rfl, rfl, rfl, rfl, rfl⟩
    · exact ⟨rfl, rfl, rfl, rfl, rfl⟩

theorem connect_corr (s : TransportState) :
    (connect s).pending = s.pending ∧ (connect s).armed = s.armed
    ∧ (connect s).settled = s.settled := by
  unfold connect persistUrlToken
  repeat' split
  all_goals exact ⟨rfl, rfl, rfl⟩

theorem lookupL_mapSet_self (m : List (String × List Nat)) (k : String) (v : List Nat) :
    lookupL (mapSet m k v) k = some v := by
  induction m with
  | nil => simp [mapSet, lookupL, List.find?]
  | cons p rest ih =>
      by_cases h : p.1 = k
      · simp [mapSet, lookupL, List.find?, h]
      · have hb : (p.1 == k) = false := beq_eq_false_iff_ne.mpr h
        simp only [mapSet, hb, if_neg, Bool.false_eq_true, ite_false]
        simpa [lookupL, List.find?, hb] using ih

theorem lookupL_mapDelete_self (m : List (String × List Nat)) (k : String) :
    lookupL (mapDelete m k) k = none := by
  induction m with
  | nil => rfl
  | cons p rest ih =>
      by_cases h : p.1 = k
      · simpa [mapDelete, List.filter_cons, h] using ih
      · have hb : (p.1 != k) = true := bne_iff_ne.mpr h
        have hb2 : (p.1 == k) = false := beq_eq_false_iff_ne.mpr h
        simp [mapDelete, List.filter_cons, hb, lookupL, List.find?, hb2]

theorem mapSet_mapSet_self (m : List (String × List Nat)) (k : String) (v w : List Nat) :
    mapSet (mapSet m k v) k w = mapSet m k w := by
  induction m with
  | nil => simp [mapSet]
  | cons p rest ih =>
      by_cases h : p.1 = k
      · simp [mapSet, h]
      · have hb : (p.1 == k) = false := beq_eq_false_iff_ne.mpr h
        simp [mapSet, hb, ih]

theorem setDel_setDel (l : List Nat) (h : Nat) : setDel (setDel l h) h = setDel l h := by
  induction l with
  | nil => rfl
  | cons x xs ih =>
      by_cases hx : x = h
      · simp [setDel, List.filter_cons, hx]
      · have hb : (x != h) = true := bne_iff_ne.mpr hx
        simp only [setDel, List.filter_cons, hb, if_pos]
        simp [setDel]

theorem unlistenMap_of_none {m : List (String × List Nat)} {name : String} {h : Nat}
    (hl : lookupL m name = none) : unlistenMap m name h = m := by
  unfold unlistenMap
  simp [hl]

theorem unlistenMap_of_some_nil {m : List (String × List Nat)} {name : String} {h : Nat}
    {l : List Nat} (hl : lookupL m name = some l) (hnil : setDel l h = []) :
    unlistenMap m name h = mapDelete (mapSet m name (setDel l h)) name := by
  unfold unlistenMap
  simp [hl, lookupL_mapSet_self, hnil]

theorem unlistenMap_of_some_ne {m : List (String × List Nat)} {name : String} {h : Nat}
    {l : List Nat} (hl : lookupL m name = some l) (hnil : setDel l h ≠ []) :
    unlistenMap m name h = mapSet m name (setDel l h) := by
  unfold unlistenMap
  simp [hl, lookupL_mapSet_self, hnil]

theorem unlistenMap_idem (m : List (String × List Nat)) (name : String) (h : Nat) :
    unlistenMap (unlistenMap m name h) name h = unlistenMap m name h := by
  cases hl : lookupL m name with
  | none => rw [unlistenMap_of_none hl, unlistenMap_of_none hl]
  | some l =>
      by_cases hnil : setDel l h = []
      · rw [unlistenMap_of_some_nil hl hnil]
        exact unlistenMap_of_none (lookupL_mapDelete_self _ _)
      · rw [unlistenMap_of_some_ne hl hnil]
        have hl2 : lookupL (mapSet m name (setDel l h)) name = some (setDel l h) :=
          lookupL_mapSet_self _ _ _
        have hnil2 : setDel (setDel l h) h ≠ [] := by rw [setDel_setDel]; exact hnil
        rw [unlistenMap_of_some_ne hl2 hnil2, setDel_setDel, mapSet_mapSet_self]

theorem unlistenMap_ne_nil (m : List (String × List Nat)) (name : String) (h : Nat) :
    lookupL (unlistenMap m name h) name ≠ some [] := by
  cases hl : lookupL m name with
  | none => rw [unlistenMap_of_none hl, hl]; simp
  | some l =>
      by_cases hnil : setDel l h = []
      · rw [unlistenMap_of_some_nil hl hnil, lookupL_mapDelete_self]; simp
      · rw [unlistenMap_of_some_ne hl hnil, lookupL_mapSet_self]
        simp [hnil]

theorem fanout_fst (beh : Nat → Nat → Except String Unit) (payload : Nat) (hs : List Nat) :
    (fanout beh payload hs).1 = hs.map fun h => (h, payload) := by
  induction hs with
  | nil => rfl
  | cons h rest ih =>
      unfold fanout
      cases hb : beh h payload <;> simp [hb, ih]

-- ---------------------------------------------------------------------------
-- Claim theorems (first group)
-- ---------------------------------------------------------------------------

/-- C3: when the socket open event fires, every queued send is written to the
socket exactly once, in the FIFO order in which it was enqueued, the queue is
emptied, and the reconnect attempt counter is reset to zero. -/
theorem open_flushes_queue_in_order (s : TransportState) :
    (handleOpen s).sent = s.sent ++ s.queue ∧ (handleOpen s).queue = []
    ∧ (handleOpen s).reconnectAttempt = 0 ∧ (handleOpen s).connected = true := by
  refine ⟨?_, rfl, rfl, rfl⟩
  exact flushQueue_eq s.queue s.sent

/-- C6: handling a socket close event rejects no currently-pending request and
leaves the pending table, the armed timers and the settlement log unchanged;
outstanding requests can settle only later via their own response, error, or
expiry timer. -/
theorem close_rejects_no_pending_request (s : TransportState) :
    (handleClose s).pending = s.pending ∧ (handleClose s).armed = s.armed
    ∧ (handleClose s).settled = s.settled := by
  have h := scheduleReconnect_frame
    { s with wsReady := some ReadyState.closed, connected := false }
  exact ⟨h.1, h.2.1, h.2.2.1⟩

/-- C7: the unsubscribe function returned by listen is idempotent (calling it
twice leaves the whole state exactly as calling it once, and it is a total
function, so it never throws), and after it runs the event name never maps to
an empty handler set. -/
theorem unsubscribe_idempotent_no_empty_set (s : TransportState) (name : String) (h : Nat) :
    unlisten (unlisten s name h) name h = unlisten s name h
    ∧ lookupL (unlisten s name h).listeners name ≠ some [] := by
  constructor
  · simp [unlisten, unlistenMap_idem]
  · simpa [unlisten] using unlistenMap_ne_nil s.listeners name h

/-- C8: during fan-out of an inbound event message, a throwing handler is
isolated: every handler registered under the event name is invoked with the
payload in iteration order regardless of earlier throws, and the listener map
(hence every other event name) and the correlation state are unaffected. -/
theorem event_fanout_isolates_throwing_handlers (beh : Nat → Nat → Except String Unit)
    (s : TransportState) (name : String) (payload : Nat) :
    (handleEventMsg beh s name payload).listeners = s.listeners
    ∧ (handleEventMsg beh s name payload).invoked
        = s.invoked ++ ((lookupL s.listeners name).getD []).map (fun h => (h, payload))
    ∧ (handleEventMsg beh s name payload).pending = s.pending
    ∧ (handleEventMsg beh s name payload).settled = s.settled := by
  cases hl : lookupL s.listeners name with
  | none => simp [handleEventMsg, hl]
  | some hs => simp [handleEventMsg, hl, fanout_fst]

/-- C10: getPreloadedData returns null on every call, even after
preloadInitialData has resolved with a non-null snapshot and hasPreloadedData
returns true, because the function reads its result variable before the
then-continuation that assigns it can run. -/
theorem getPreloadedData_always_null :
    (∀ g : PreloadGlobals, getPreloadedData g = none)
    ∧ ∀ (g : PreloadGlobals) (d : InitialData),
        g.initialDataResolved = true →
        g.initialDataPromise = some (PromiseState.fulfilled (some d)) →
        hasPreloadedData g = true ∧ getPreloadedData g = none
          ∧ (getPreloadedDataRun g).2 = some d := by
  constructor
  · intro g
    unfold getPreloadedData getPreloadedDataRun
    split
    · rfl
    · cases hp : g.initialDataPromise with
      | none => rfl
      | some p => simp [thenAssign]
  · intro g d h1 h2
    refine ⟨h1, ?_, ?_⟩
    · simp [getPreloadedData, getPreloadedDataRun, h1, h2, thenAssign]
    · simp [getPreloadedDataRun, h1, h2, thenAssign]

/-- Closed evaluation of getPreloadedData_always_null on a resolved preload. -/
theorem getPreloadedData_always_null_witness :
    hasPreloadedData exampleGlobals = true
    ∧ getPreloadedData exampleGlobals = none
    ∧ (getPreloadedDataRun exampleGlobals).2 = some exampleSnapshot :=
  getPreloadedData_always_null.2 exampleGlobals exampleSnapshot rfl rfl

-- ---------------------------------------------------------------------------
-- Reconnect-attempt helper lemmas
-- ---------------------------------------------------------------------------

theorem connect_attempt (s : TransportState) :
    (connect s).reconnectAttempt = s.reconnectAttempt := by
  unfold connect persistUrlToken
  repeat' split
  all_goals rfl

theorem scheduleReconnect_attempt (s : TransportState) :
    (scheduleReconnect s).reconnectAttempt = s.reconnectAttempt
    ∨ (scheduleReconnect s).reconnectAttempt = s.reconnectAttempt + 1 := by
  unfold scheduleReconnect
  split
  · exact Or.inl rfl
  · split
    · exact Or.inl rfl
    · exact Or.inr rfl

theorem handleResponse_attempt (s : TransportState) (id : String) (d : Option String) :
    (handleResponse s id d).reconnectAttempt = s.reconnectAttempt := by
  unfold handleResponse
  split <;> rfl

theorem handleErrorMsg_attempt (s : TransportState) (id : String) (e : Option String) :
    (handleErrorMsg s id e).reconnectAttempt = s.reconnectAttempt := by
  unfold handleErrorMsg
  split <;> rfl

theorem fireTimeout_attempt (s : TransportState) (id : String) :
    (fireTimeout s id).reconnectAttempt = s.reconnectAttempt := by
  unfold fireTimeout
  split <;> rfl

theorem handleEventMsg_attempt (beh : Nat → Nat → Except String Unit) (s : TransportState)
    (name : String) (payload : Nat) :
    (handleEventMsg beh s name payload).reconnectAttempt = s.reconnectAttempt := by
  unfold handleEventMsg
  split <;> rfl

theorem validateAndConnect_attempt (s : TransportState) (o : FetchOutcome) :
    (validateAndConnect s o).reconnectAttempt = s.reconnectAttempt
    ∨ (validateAndConnect s o).reconnectAttempt = s.reconnectAttempt + 1 := by
  cases o with
  | ok => exact Or.inl rfl
  | notOk => exact Or.inl rfl
  | networkFailure =>
      exact scheduleReconnect_attempt { s with authError := none }

/-- Across every event-loop turn, the reconnect attempt counter can become
zero only by already being zero or by the socket open event. -/
theorem step_attempt_zero_only_on_open (beh : Nat → Nat → Except String Unit)
    (t : TransportState) (e : TEvent)
    (h : (step beh t e).reconnectAttempt = 0) :
    t.reconnectAttempt = 0 ∨ e = TEvent.sockOpen := by
  cases e with
  | msgResponse id d =>
      left
      have h' : (handleResponse t id d).reconnectAttempt = 0 := h
      rwa [handleResponse_attempt] at h'
  | msgError id e' =>
      left
      have h' : (handleErrorMsg t id e').reconnectAttempt = 0 := h
      rwa [handleErrorMsg_attempt] at h'
  | msgEvent name payload =>
      left
      have h' : (handleEventMsg beh t name payload).reconnectAttempt = 0 := h
      rwa [handleEventMsg_attempt] at h'
  | timeoutFire id =>
      left
      have h' : (fireTimeout t id).reconnectAttempt = 0 := h
      rwa [fireTimeout_attempt] at h'
  | sockOpen => exact Or.inr rfl
  | sockClose =>
      left
      have h' : (scheduleReconnect
          { t with wsReady := some ReadyState.closed, connected := false }).reconnectAttempt = 0 := h
      rcases scheduleReconnect_attempt
          { t with wsReady := some ReadyState.closed, connected := false } with h2 | h2
      · rw [h2] at h'
        exact h'
      · rw [h2] at h'
        exact absurd h' (Nat.succ_ne_zero _)
  | invokeCall id dataStr =>
      left
      have h' : (invoke t id dataStr).reconnectAttempt = 0 := h
      unfold invoke at h'
      split at h'
      · exact h'
      · rwa [connect_attempt] at h'
  | listenCall name hh =>
      left
      have h' : (listen t name hh).reconnectAttempt = 0 := h
      unfold listen at h'
      rwa [connect_attempt] at h'
  | unlistenCall name hh => exact Or.inl h
  | validateResult o =>
      left
      have h' : (validateAndConnect t o).reconnectAttempt = 0 := h
      rcases validateAndConnect_attempt t o with h2 | h2
      · rw [h2] at h'
        exact h'
      · rw [h2] at h'
        exact absurd h' (Nat.succ_ne_zero _)
  | reconnectFire =>
      left
      have h' : (connect { t with reconnectTimer := none }).reconnectAttempt = 0 := h
      rwa [connect_attempt] at h'

-- ---------------------------------------------------------------------------
-- Claim theorems: connection state machine (C4, C5)
-- ---------------------------------------------------------------------------

/-- C4: an explicit (non-ok, non-network) rejection of the token pre-flight
check removes the persisted token, sets the terminal auth error, opens no
socket and schedules no reconnect timer; and scheduleReconnect is a no-op
whenever an auth error is set. -/
theorem auth_rejection_is_terminal (s : TransportState) :
    (validateAndConnect s FetchOutcome.notOk).storedToken = none
    ∧ (validateAndConnect s FetchOutcome.notOk).authError = some invalidTokenMsg
    ∧ (validateAndConnect s FetchOutcome.notOk).reconnectTimer = s.reconnectTimer
    ∧ (validateAndConnect s FetchOutcome.notOk).wsReady = s.wsReady
    ∧ ∀ t : TransportState, t.authError.isSome = true → scheduleReconnect t = t := by
  refine ⟨rfl, rfl, rfl, rfl, ?_⟩
  intro t ht
  unfold scheduleReconnect
  split <;> rfl

/-- Closed evaluation of auth_rejection_is_terminal. -/
theorem auth_rejection_is_terminal_witness :
    (validateAndConnect { mkState with storedToken := some "tok" } FetchOutcome.notOk).storedToken = none
    ∧ scheduleReconnect { mkState with authError := some "bad" }
        = { mkState with authError := some "bad" } :=
  ⟨(auth_rejection_is_terminal { mkState with storedToken := some "tok" }).1,
   (auth_rejection_is_terminal mkState).2.2.2.2 { mkState with authError := some "bad" } rfl⟩

/-- C5: a network-level failure of the token pre-flight check sets no auth
error and schedules a reconnect with backoff delay min(1000 * 2 ^ attempt,
30000) while incrementing the attempt counter; the counter is reset to zero
on the socket open event and only there. -/
theorem network_failure_schedules_backoff (s : TransportState)
    (ht : s.reconnectTimer = none) :
    (validateAndConnect s FetchOutcome.networkFailure).authError = none
    ∧ (validateAndConnect s FetchOutcome.networkFailure).reconnectTimer
        = some (min (1000 * 2 ^ s.reconnectAttempt) 30000)
    ∧ (validateAndConnect s FetchOutcome.networkFailure).reconnectAttempt
        = s.reconnectAttempt + 1
    ∧ (∀ t : TransportState, (handleOpen t).reconnectAttempt = 0)
    ∧ ∀ (beh : Nat → Nat → Except String Unit) (t : TransportState) (e : TEvent),
        (step beh t e).reconnectAttempt = 0 → t.reconnectAttempt = 0 ∨ e = TEvent.sockOpen := by
  have hvc : validateAndConnect s FetchOutcome.networkFailure
      = { s with authError := none,
                 reconnectTimer := some (min (1000 * 2 ^ s.reconnectAttempt) 30000),
                 reconnectAttempt := s.reconnectAttempt + 1 } := by
    show scheduleReconnect { s with authError := none } = _
    unfold scheduleReconnect
    simp [ht]
  refine ⟨?_, ?_, ?_, fun t => rfl, step_attempt_zero_only_on_open⟩ <;> rw [hvc]

/-- Closed evaluation of network_failure_schedules_backoff. -/
theorem network_failure_schedules_backoff_witness :
    (validateAndConnect mkState FetchOutcome.networkFailure).authError = none
    ∧ (validateAndConnect mkState FetchOutcome.networkFailure).reconnectTimer = some 1000
    ∧ (validateAndConnect mkState FetchOutcome.networkFailure).reconnectAttempt = 1 := by
  have h := network_failure_schedules_backoff mkState rfl
  refine ⟨h.1, ?_, h.2.2.1⟩
  rw [h.2.1]
  decide

-- ---------------------------------------------------------------------------
-- Claim theorem: invalidation pass (C9)
-- ---------------------------------------------------------------------------

theorem invalidatePredicate_eq_false_iff (key : List String) :
    invalidatePredicate key = false
      ↔ key.head? ∈ [some "projects", some "chat", some "preferences", some "ui-state"] := by
  cases key with
  | nil => simp [invalidatePredicate]
  | cons k ks =>
      simp only [invalidatePredicate, List.head?_cons, List.mem_cons, Option.some.injEq,
        Bool.and_eq_false_iff, bne_eq_false_iff_eq, List.mem_singleton, List.not_mem_nil,
        or_false]
      tauto

/-- C9: the invalidation pass run when the socket reaches Connected excludes
exactly the preloaded key families: every cache key written by seedCache is
excluded from invalidation, and a key is excluded precisely when it belongs
to one of the preloaded families (projects/worktrees, sessions/chat,
preferences, UI state); every other key is invalidated. -/
theorem invalidation_excludes_exactly_preloaded :
    (∀ (d : InitialData) (k : List String), k ∈ seededKeys d → invalidatePredicate k = false)
    ∧ ∀ key : List String,
        invalidatePredicate key = false
          ↔ key.head? ∈ [some "projects", some "chat", some "preferences", some "ui-state"] := by
  constructor
  · intro d k hk
    simp only [seededKeys, List.mem_append, List.mem_map, Option.mem_toList] at hk
    rcases hk with (((((⟨x, hx, rfl⟩ | ⟨p, hp, rfl⟩) | ⟨p, hp, rfl⟩) | ⟨p, hp, rfl⟩)
        | ⟨x, hx, rfl⟩) | ⟨x, hx, rfl⟩) <;>
      simp [invalidatePredicate, projectsListKey, worktreesKey, sessionsKey, sessionKey,
        preferencesKey, uiStateKey]
  · exact invalidatePredicate_eq_false_iff

/-- Closed evaluation of invalidation_excludes_exactly_preloaded. -/
theorem invalidation_excludes_exactly_preloaded_witness :
    invalidatePredicate (sessionsKey "w1") = false
    ∧ (invalidatePredicate ["pr-status"] = false
        ↔ List.head? ["pr-status"]
            ∈ [some "projects", some "chat", some "preferences", some "ui-state"]) :=
  ⟨invalidation_excludes_exactly_preloaded.1 exampleSnapshot (sessionsKey "w1") (by decide),
   invalidation_excludes_exactly_preloaded.2 ["pr-status"]⟩

-- ---------------------------------------------------------------------------
-- Correlation-table helper lemmas (for C1, C2)
-- ---------------------------------------------------------------------------

theorem any_filter_imp {α : Type} {p q : α → Bool} (l : List α)
    (h : ∀ x, q x = true → p x = true) : (l.filter p).any q = l.any q := by
  induction l with
  | nil => rfl
  | cons x xs ih =>
      cases hp : p x with
      | true => simp [List.filter_cons, hp, List.any_cons, ih]
      | false =>
          have hq : q x = false := by
            cases hqx : q x with
            | false => rfl
            | true => rw [h x hqx] at hp; exact Bool.noConfusion hp
          simp [List.filter_cons, hp, List.any_cons, hq, ih]

theorem any_filter_none {α : Type} {p q : α → Bool} (l : List α)
    (h : ∀ x, q x = true → p x = false) : (l.filter p).any q = false := by
  induction l with
  | nil => rfl
  | cons x xs ih =>
      cases hp : p x with
      | false => simp [List.filter_cons, hp, ih]
      | true =>
          have hq : q x = false := by
            cases hqx : q x with
            | false => rfl
            | true => rw [h x hqx] at hp; exact Bool.noConfusion hp
          simp [List.filter_cons, hp, List.any_cons, hq, ih]

theorem find?_eq_none_iff_any {α : Type} (p : α → Bool) (l : List α) :
    l.find? p = none ↔ l.any p = false := by
  induction l with
  | nil => simp
  | cons x xs ih =>
      cases hp : p x <;> simp [List.find?_cons, hp, ih]

theorem any_of_find?_some {α : Type} {p : α → Bool} {l : List α} {x : α}
    (h : l.find? p = some x) : l.any p = true := by
  cases hv : l.any p with
  | true => rfl
  | false =>
      rw [(find?_eq_none_iff_any p l).mpr hv] at h
      exact Option.noConfusion h

theorem find?_append_of_none {α : Type} {p : α → Bool} {l1 : List α}
    (h : l1.find? p = none) (l2 : List α) : (l1 ++ l2).find? p = l2.find? p := by
  induction l1 with
  | nil => rfl
  | cons x xs ih =>
      cases hp : p x with
      | false =>
          have hx : ¬ p x = true := by simp [hp]
          rw [List.find?_cons_of_neg _ hx] at h
          rw [List.cons_append, List.find?_cons_of_neg _ hx]
          exact ih h
      | true =>
          rw [List.find?_cons_of_pos _ hp] at h
          exact Option.noConfusion h

theorem handleResponse_of_found {s : TransportState} {id : String} {x : String × Nat}
    (hf : s.pending.find? (fun p => p.1 == id) = some x) (d : Option String) :
    handleResponse s id d = settleEntry s id (Outcome.resolved d) := by
  unfold handleResponse settleEntry
  rw [hf]

theorem handleResponse_of_missing {s : TransportState} {id : String}
    (hf : s.pending.find? (fun p => p.1 == id) = none) (d : Option String) :
    handleResponse s id d = s := by
  unfold handleResponse
  rw [hf]

theorem handleErrorMsg_of_found {s : TransportState} {id : String} {x : String × Nat}
    (hf : s.pending.find? (fun p => p.1 == id) = some x) (e : Option String) :
    handleErrorMsg s id e = settleEntry s id (Outcome.rejectedErr (match e with
      | some m => if m == "" then "Unknown error" else m
      | none => "Unknown error")) := by
  unfold handleErrorMsg settleEntry
  rw [hf]

theorem handleErrorMsg_of_missing {s : TransportState} {id : String}
    (hf : s.pending.find? (fun p => p.1 == id) = none) (e : Option String) :
    handleErrorMsg s id e = s := by
  unfold handleErrorMsg
  rw [hf]

theorem fireTimeout_of_armed {s : TransportState} {id : String}
    (h : s.armed.any (· == id) = true) :
    fireTimeout s id = settleEntry s id Outcome.timedOut := by
  unfold fireTimeout settleEntry
  rw [if_pos h]

theorem fireTimeout_of_disarmed {s : TransportState} {id : String}
    (h : s.armed.any (· == id) = false) :
    fireTimeout s id = s := by
  unfold fireTimeout
  rw [if_neg]
  simp [h]

theorem reqState_of_corr {id : String} {s t : TransportState}
    (hp : t.pending = s.pending) (ha : t.armed = s.armed) (hs : t.settled = s.settled)
    (h : ReqState id s) : ReqState id t := by
  unfold ReqState pendingHas armedHas settledCount at h ⊢
  rw [hp, ha, hs]
  exact h

theorem validateAndConnect_corr (s : TransportState) (o : FetchOutcome) :
    (validateAndConnect s o).pending = s.pending
    ∧ (validateAndConnect s o).armed = s.armed
    ∧ (validateAndConnect s o).settled = s.settled := by
  cases o with
  | ok => exact ⟨rfl, rfl, rfl⟩
  | notOk => exact ⟨rfl, rfl, rfl⟩
  | networkFailure =>
      have h := scheduleReconnect_frame { s with authError := none }
      exact ⟨h.1, h.2.1, h.2.2.1⟩

theorem handleEventMsg_corr (beh : Nat → Nat → Except String Unit) (s : TransportState)
    (name : String) (payload : Nat) :
    (handleEventMsg beh s name payload).pending = s.pending
    ∧ (handleEventMsg beh s name payload).armed = s.armed
    ∧ (handleEventMsg beh s name payload).settled = s.settled := by
  unfold handleEventMsg
  split <;> exact ⟨rfl, rfl, rfl⟩

theorem reqState_settle_self {id : String} (s : TransportState) (o : Outcome)
    (h : ReqState id s) (hpend : pendingHas s id = true) :
    ReqState id (settleEntry s id o) := by
  obtain ⟨h1, h2, h3⟩ := h
  have hp0 : pendingHas (settleEntry s id o) id = false := by
    show ((s.pending.filter fun p => p.1 != id).any fun p => p.1 == id) = false
    refine any_filter_none _ fun x hx => ?_
    have hxid : x.1 = id := by simpa using hx
    simp [hxid]
  have ha0 : armedHas (settleEntry s id o) id = false := by
    show ((s.armed.filter (· != id)).any (· == id)) = false
    refine any_filter_none _ fun x hx => ?_
    have hxid : x = id := by simpa using hx
    simp [hxid]
  have hc1 : settledCount (settleEntry s id o) id = 1 := by
    show ((s.settled ++ [(id, o)]).filter fun p => p.1 == id).length = 1
    rw [List.filter_append]
    have hc0 := h2 hpend
    unfold settledCount at hc0
    rw [List.length_append, hc0]
    simp
  refine ⟨by rw [hp0, ha0], fun hcontra => ?_, fun _ => hc1⟩
  rw [hp0] at hcontra
  exact Bool.noConfusion hcontra

theorem reqState_settle_other {id j : String} (s : TransportState) (o : Outcome)
    (hj : j ≠ id) (h : ReqState id s) : ReqState id (settleEntry s j o) := by
  obtain ⟨h1, h2, h3⟩ := h
  have hij : (∀ x : String × Nat, (x.1 == id) = true → (x.1 != j) = true) := by
    intro x hx
    have hxid : x.1 = id := by simpa using hx
    rw [hxid]
    exact bne_iff_ne.mpr fun hh => hj hh.symm
  have hp : pendingHas (settleEntry s j o) id = pendingHas s id := by
    show ((s.pending.filter fun p => p.1 != j).any fun p => p.1 == id)
        = s.pending.any fun p => p.1 == id
    exact any_filter_imp _ hij
  have ha : armedHas (settleEntry s j o) id = armedHas s id := by
    show ((s.armed.filter (· != j)).any (· == id)) = s.armed.any (· == id)
    refine any_filter_imp _ fun x hx => ?_
    have hxid : x = id := by simpa using hx
    rw [hxid]
    exact bne_iff_ne.mpr fun hh => hj hh.symm
  have hc : settledCount (settleEntry s j o) id = settledCount s id := by
    show ((s.settled ++ [(j, o)]).filter fun p => p.1 == id).length = _
    rw [List.filter_append]
    have hnil : ([(j, o)].filter fun p => p.1 == id) = [] := by
      simp [beq_eq_false_iff_ne.mpr hj]
    rw [hnil]
    simp [settledCount]
  exact ⟨by rw [hp, ha]; exact h1,
         fun hx => by rw [hc]; exact h2 (hp.symm.trans hx),
         fun hx => by rw [hc]; exact h3 (hp.symm.trans hx)⟩

theorem reqState_register {id j : String} (s T : TransportState) (hb : (j == id) = false)
    (hp : T.pending = s.pending ++ [(j, timedOutDelayMs)])
    (ha : T.armed = s.armed ++ [j]) (hs : T.settled = s.settled)
    (h : ReqState id s) : ReqState id T := by
  obtain ⟨h1, h2, h3⟩ := h
  have hp2 : pendingHas T id = pendingHas s id := by
    unfold pendingHas
    rw [hp]
    simp [List.any_append, hb]
  have ha2 : armedHas T id = armedHas s id := by
    unfold armedHas
    rw [ha]
    simp [List.any_append, hb]
  have hs2 : settledCount T id = settledCount s id := by
    unfold settledCount
    rw [hs]
  exact ⟨by rw [hp2, ha2]; exact h1,
         fun hx => by rw [hs2]; exact h2 (hp2.symm.trans hx),
         fun hx => by rw [hs2]; exact h3 (hp2.symm.trans hx)⟩

theorem reqState_invoke_other {id : String} (s : TransportState) (j ds : String)
    (hj : j ≠ id) (h : ReqState id s) : ReqState id (invoke s j ds) := by
  have hb : (j == id) = false := beq_eq_false_iff_ne.mpr hj
  unfold invoke
  split
  · exact reqState_register s _ hb rfl rfl rfl h
  · exact reqState_register s _ hb ((connect_corr _).1) ((connect_corr _).2.1)
      ((connect_corr _).2.2) h

/-- Every event-loop turn that does not register the id again preserves the
correlation-table invariant for that id. -/
theorem reqState_step {id : String} (beh : Nat → Nat → Except String Unit)
    (s : TransportState) (e : TEvent)
    (he : eventFresh id e = true)
    (h : ReqState id s) : ReqState id (step beh s e) := by
  cases e with
  | msgResponse j d =>
      show ReqState id (handleResponse s j d)
      cases hf : s.pending.find? (fun p => p.1 == j) with
      | none => rwa [handleResponse_of_missing hf]
      | some x =>
          rw [handleResponse_of_found hf]
          by_cases hji : j = id
          · subst hji
            exact reqState_settle_self s _ h (any_of_find?_some hf)
          · exact reqState_settle_other s _ hji h
  | msgError j e' =>
      show ReqState id (handleErrorMsg s j e')
      cases hf : s.pending.find? (fun p => p.1 == j) with
      | none => rwa [handleErrorMsg_of_missing hf]
      | some x =>
          rw [handleErrorMsg_of_found hf]
          by_cases hji : j = id
          · subst hji
            exact reqState_settle_self s _ h (any_of_find?_some hf)
          · exact reqState_settle_other s _ hji h
  | timeoutFire j =>
      show ReqState id (fireTimeout s j)
      cases hv : s.armed.any (· == j) with
      | false => rwa [fireTimeout_of_disarmed hv]
      | true =>
          rw [fireTimeout_of_armed hv]
          by_cases hji : j = id
          · subst hji
            exact reqState_settle_self s _ h (h.1.trans hv)
          · exact reqState_settle_other s _ hji h
  | msgEvent name payload =>
      have hc := handleEventMsg_corr beh s name payload
      exact reqState_of_corr hc.1 hc.2.1 hc.2.2 h
  | sockOpen => exact reqState_of_corr rfl rfl rfl h
  | sockClose =>
      have hc := scheduleReconnect_frame
        { s with wsReady := some ReadyState.closed, connected := false }
      exact reqState_of_corr hc.1 hc.2.1 hc.2.2.1 h
  | invokeCall j ds =>
      have hji : j ≠ id := by simpa [eventFresh] using he
      exact reqState_invoke_other s j ds hji h
  | listenCall name hh =>
      have hc := connect_corr { s with listeners := listenMap s.listeners name hh }
      exact reqState_of_corr hc.1 hc.2.1 hc.2.2 h
  | unlistenCall name hh => exact reqState_of_corr rfl rfl rfl h
  | validateResult o =>
      have hc := validateAndConnect_corr s o
      exact reqState_of_corr hc.1 hc.2.1 hc.2.2 h
  | reconnectFire =>
      have hc := connect_corr { s with reconnectTimer := none }
      exact reqState_of_corr hc.1 hc.2.1 hc.2.2 h

/-- The invariant is preserved along any run of id-fresh events. -/
theorem reqState_run {id : String} (beh : Nat → Nat → Except String Unit) :
    ∀ (es : List TEvent) (s : TransportState),
      freshFor id es = true → ReqState id s → ReqState id (run beh s es) := by
  intro es
  induction es with
  | nil => intro s _ h; exact h
  | cons e rest ih =>
      intro s hf h
      have hsplit := (Bool.and_eq_true _ _).mp
        (show (eventFresh id e && freshFor id rest) = true from hf)
      show ReqState id (run beh (step beh s e) rest)
      exact ih _ hsplit.2 (reqState_step beh s e hsplit.1 h)

theorem run_append_single (beh : Nat → Nat → Except String Unit) (s : TransportState)
    (es : List TEvent) (e : TEvent) :
    run beh s (es ++ [e]) = step beh (run beh s es) e := by
  simp [run, List.foldl_append]

theorem settled_after_timeout {id : String} (T : TransportState) (h : ReqState id T) :
    settledCount (fireTimeout T id) id = 1
    ∧ (pendingHas T id = true →
        (fireTimeout T id).settled = T.settled ++ [(id, Outcome.timedOut)]) := by
  obtain ⟨h1, h2, h3⟩ := h
  cases hv : pendingHas T id with
  | true =>
      have harm : T.armed.any (· == id) = true := h1.symm.trans hv
      rw [fireTimeout_of_armed harm]
      constructor
      · show ((T.settled ++ [(id, Outcome.timedOut)]).filter fun p => p.1 == id).length = 1
        rw [List.filter_append]
        have hc0 := h2 hv
        unfold settledCount at hc0
        rw [List.length_append, hc0]
        simp
      · intro _
        rfl
  | false =>
      have harm : T.armed.any (· == id) = false := h1.symm.trans hv
      rw [fireTimeout_of_disarmed harm]
      refine ⟨h3 hv, fun hcontra => ?_⟩
      exact Bool.noConfusion hcontra

theorem invoke_pending (s : TransportState) (id ds : String) :
    (invoke s id ds).pending = s.pending ++ [(id, timedOutDelayMs)] := by
  unfold invoke
  split
  · rfl
  · exact (connect_corr _).1

theorem invoke_armed (s : TransportState) (id ds : String) :
    (invoke s id ds).armed = s.armed ++ [id] := by
  unfold invoke
  split
  · rfl
  · exact (connect_corr _).2.1

theorem invoke_settled (s : TransportState) (id ds : String) :
    (invoke s id ds).settled = s.settled := by
  unfold invoke
  split
  · rfl
  · exact (connect_corr _).2.2

-- ---------------------------------------------------------------------------
-- Claim theorems: correlation table (C1, C2)
-- ---------------------------------------------------------------------------

/-- C1: for a registered request id, at most one of response, error or
timeout ever settles the promise along any run of events that does not reuse
the id; once settled, the id is out of the pending table, its timer is
disarmed, and any later response or error message bearing the id leaves the
state unchanged. -/
theorem request_settles_at_most_once (beh : Nat → Nat → Except String Unit)
    (s : TransportState) (id : String) (es : List TEvent)
    (hreq : ReqState id s) (hfresh : freshFor id es = true) :
    settledCount (run beh s es) id ≤ 1
    ∧ (1 ≤ settledCount (run beh s es) id →
        pendingHas (run beh s es) id = false
        ∧ armedHas (run beh s es) id = false
        ∧ ∀ (d e' : Option String),
            step beh (run beh s es) (TEvent.msgResponse id d) = run beh s es
            ∧ step beh (run beh s es) (TEvent.msgError id e') = run beh s es) := by
  obtain ⟨h1, h2, h3⟩ := reqState_run beh es s hfresh hreq
  cases hv : pendingHas (run beh s es) id with
  | true =>
      have hc := h2 hv
      constructor
      · rw [hc]
        exact Nat.zero_le 1
      · intro hge
        rw [hc] at hge
        exact absurd hge (by omega)
  | false =>
      have hc := h3 hv
      refine ⟨by rw [hc], fun _ => ⟨rfl, by rw [← h1]; exact hv, fun d e' => ?_⟩⟩
      have hfind : (run beh s es).pending.find? (fun p => p.1 == id) = none :=
        (find?_eq_none_iff_any _ _).mpr hv
      exact ⟨handleResponse_of_missing hfind d, handleErrorMsg_of_missing hfind e'⟩

/-- Closed evaluation of request_settles_at_most_once: a response followed by
an error for the same id settles it exactly once. -/
theorem request_settles_at_most_once_witness :
    settledCount (run (fun _ _ => Except.ok ()) regState
        [TEvent.msgResponse "r" (some "v"), TEvent.msgError "r" none]) "r" ≤ 1 :=
  (request_settles_at_most_once (fun _ _ => Except.ok ()) regState "r"
      [TEvent.msgResponse "r" (some "v"), TEvent.msgError "r" none]
      ⟨rfl, fun _ => rfl, fun hx => Bool.noConfusion hx⟩ (by decide)).1

/-- C2: every socket-routed invoke, in particular one issued while the socket
is not open, registers a 60000 ms timer independent of connection state, and
along any id-fresh run followed by the firing of that timer (which the
runtime guarantees unless a settling message cancelled it) the promise
settles exactly once; if the request is still pending when the timer fires,
it is rejected with the timed-out failure. -/
theorem invoke_always_settles (beh : Nat → Nat → Except String Unit)
    (s : TransportState) (id dataStr : String) (es : List TEvent)
    (hp : pendingHas s id = false)
    (hc : settledCount s id = 0) (hfresh : freshFor id es = true) :
    pendingDelay (invoke s id dataStr) id = some timedOutDelayMs
    ∧ settledCount (run beh (invoke s id dataStr) (es ++ [TEvent.timeoutFire id])) id = 1
    ∧ (pendingHas (run beh (invoke s id dataStr) es) id = true →
        (run beh (invoke s id dataStr) (es ++ [TEvent.timeoutFire id])).settled
          = (run beh (invoke s id dataStr) es).settled ++ [(id, Outcome.timedOut)]) := by
  have hreq : ReqState id (invoke s id dataStr) := by
    refine ⟨?_, ?_, ?_⟩
    · show pendingHas (invoke s id dataStr) id = armedHas (invoke s id dataStr) id
      unfold pendingHas armedHas
      rw [invoke_pending, invoke_armed]
      simp [List.any_append]
    · intro _
      show settledCount (invoke s id dataStr) id = 0
      unfold settledCount
      rw [invoke_settled]
      exact hc
    · intro hfalse
      exfalso
      unfold pendingHas at hfalse
      rw [invoke_pending] at hfalse
      simp [List.any_append] at hfalse
  have hR := reqState_run beh es (invoke s id dataStr) hfresh hreq
  refine ⟨?_, ?_, ?_⟩
  · unfold pendingDelay
    rw [invoke_pending]
    rw [find?_append_of_none ((find?_eq_none_iff_any _ _).mpr hp)]
    simp [List.find?]
  · rw [run_append_single]
    exact (settled_after_timeout _ hR).1
  · intro hpend
    rw [run_append_single]
    exact (settled_after_timeout _ hR).2 hpend

/-- Closed evaluation of invoke_always_settles: an invoke issued on a fresh
disconnected transport times out and settles exactly once. -/
theorem invoke_always_settles_witness :
    pendingDelay (invoke mkState "r" "env") "r" = some timedOutDelayMs
    ∧ settledCount (run (fun _ _ => Except.ok ()) (invoke mkState "r" "env")
        [TEvent.timeoutFire "r"]) "r" = 1 := by
  have h := invoke_always_settles (fun _ _ => Except.ok ()) mkState "r" "env" []
    (by decide) (by decide) (by decide)
  exact ⟨h.1, h.2.1⟩

end Jean
